import Mathlib

/-!
Shallow embedding of the cyber_demo event store and its enrichment pipeline.

The embedding follows the TypeScript source:
* `MockDataStore` (events list, `addEvent`, `updateEventStatus`,
  `searchSimilarEvents`, `cosineSimilarity`, `getStats`, `getTopThreats`,
  `startContinuousGeneration` / `stopContinuousGeneration`),
* `AISecurityAnalyzer` (`analyzeSecurityEvent`, `getMockAnalysis`,
  `generateEmbedding`),
* the `SecurityEvent` record type from the database module.

JavaScript numbers that carry data (confidence scores, embedding components)
are modelled as rationals; the value of a cosine similarity is a real number,
and a division whose double result would be `NaN` (zero denominator) is
modelled as `Option.none`.  Asynchronous provider calls are modelled by
passing the provider's outcome (`Except Unit _`) and the mock randomness
explicitly into the operation.
-/

namespace CyberDemo

/-- Event categories: the closed union type of `SecurityEvent.event_type`. -/
inductive EventType where
  | intrusion
  | malware
  | network_anomaly
  | data_breach
  | phishing
  | dos_attack
deriving DecidableEq, Repr, Fintype

/-- Severity levels of `SecurityEvent.severity` (also used for
`ThreatAnalysis.risk_level`, which ranges over the same closed union). -/
inductive Severity where
  | low
  | medium
  | high
  | critical
deriving DecidableEq, Repr, Fintype

/-- Lifecycle states of `SecurityEvent.status`. -/
inductive Status where
  | new
  | investigating
  | resolved
  | false_positive
deriving DecidableEq, Repr

/-- The literal string of an event type, as it appears in the union type. -/
def eventTypeStr : EventType → String
  | .intrusion => "intrusion"
  | .malware => "malware"
  | .network_anomaly => "network_anomaly"
  | .data_breach => "data_breach"
  | .phishing => "phishing"
  | .dos_attack => "dos_attack"

/-- The literal string of a severity level. -/
def severityStr : Severity → String
  | .low => "low"
  | .medium => "medium"
  | .high => "high"
  | .critical => "critical"

/-- The literal string of a status value. -/
def statusStr : Status → String
  | .new => "new"
  | .investigating => "investigating"
  | .resolved => "resolved"
  | .false_positive => "false_positive"

/-- The `SecurityEvent` interface of the database module.  `timestamp` is
milliseconds since the epoch (a JS `Date`); `raw_data` is opaque structured
data, modelled by its serialized text. -/
structure SecurityEvent where
  id : String
  timestamp : Int
  event_type : EventType
  severity : Severity
  source_ip : String
  destination_ip : Option String
  description : String
  raw_data : String
  ai_analysis : Option String
  confidence_score : Option ℚ
  status : Status
  tags : List String
  embedding : Option (List ℚ)
deriving DecidableEq, Repr

/-- The `ThreatAnalysis` interface of the AI service module. -/
structure ThreatAnalysis where
  threat_type : String
  severity_justification : String
  recommended_actions : List String
  confidence_score : ℚ
  risk_level : Severity
  similar_attacks : List String
  indicators_of_compromise : List String
deriving DecidableEq, Repr

/-- The in-memory store underlying `MockDataStore`: the ordered `events`
array (front = most recently unshifted). -/
structure Store where
  events : List SecurityEvent
deriving Repr

/-! ### AISecurityAnalyzer.getMockAnalysis -/

/-- The `intrusion` entry of the `mockAnalyses` table in
`AISecurityAnalyzer.getMockAnalysis`. -/
def mockIntrusionAnalysis : ThreatAnalysis where
  threat_type := "Unauthorized Access Attempt"
  severity_justification := "Multiple failed authentication attempts from suspicious IP address indicating potential brute force attack"
  recommended_actions :=
    [ "Block source IP address immediately"
    , "Review and strengthen authentication policies"
    , "Monitor for additional attempts from same subnet"
    , "Verify integrity of targeted accounts" ]
  confidence_score := 87 / 100
  risk_level := .high
  similar_attacks := ["Credential stuffing", "Dictionary attack", "SSH brute force"]
  indicators_of_compromise := ["Rapid authentication failures", "Non-standard user agent", "Geographic anomaly"]

/-- The `malware` entry of the `mockAnalyses` table. -/
def mockMalwareAnalysis : ThreatAnalysis where
  threat_type := "Malicious File Execution"
  severity_justification := "Detected execution of known malicious binary with suspicious network communications"
  recommended_actions :=
    [ "Isolate affected system immediately"
    , "Run full system scan with updated definitions"
    , "Check for lateral movement indicators"
    , "Preserve system image for forensic analysis" ]
  confidence_score := 94 / 100
  risk_level := .critical
  similar_attacks := ["Trojan deployment", "Ransomware execution", "Remote access tool"]
  indicators_of_compromise := ["Suspicious process execution", "Unexpected network traffic", "File system modifications"]

/-- The `network_anomaly` entry of the `mockAnalyses` table. -/
def mockNetworkAnomalyAnalysis : ThreatAnalysis where
  threat_type := "Abnormal Network Traffic Pattern"
  severity_justification := "Unusual data exfiltration patterns detected suggesting potential data breach"
  recommended_actions :=
    [ "Monitor network traffic for sensitive data"
    , "Check data access logs for anomalies"
    , "Verify user account activities"
    , "Review firewall and DLP policies" ]
  confidence_score := 76 / 100
  risk_level := .medium
  similar_attacks := ["Data exfiltration", "Command and control communication", "DNS tunneling"]
  indicators_of_compromise := ["Unusual data volumes", "Off-hours activity", "Encrypted communications"]

/-- The `mockAnalyses` lookup table of `getMockAnalysis`: it has exactly the
three keys written in the source (`intrusion`, `malware`, `network_anomaly`). -/
def mockAnalyses : List (EventType × ThreatAnalysis) :=
  [ (.intrusion, mockIntrusionAnalysis)
  , (.malware, mockMalwareAnalysis)
  , (.network_anomaly, mockNetworkAnomalyAnalysis) ]

/-- Models `AISecurityAnalyzer.getMockAnalysis`: an indexing into
`mockAnalyses` by the (possibly absent) `event_type` of the partial event,
falling back to the `intrusion` entry when the index misses
(`mockAnalyses[event.event_type] || mockAnalyses['intrusion']`). -/
def getMockAnalysis (eventType : Option EventType) : ThreatAnalysis :=
  match eventType.bind (fun t => (mockAnalyses.lookup t)) with
  | some a => a
  | none => mockIntrusionAnalysis

/-- Models `AISecurityAnalyzer.analyzeSecurityEvent`.  The external provider
call is abstracted as its outcome `provider`; when the API key is absent the
mock analysis is returned directly, and any provider failure is caught and
replaced by the mock analysis as well, so the operation is total. -/
def analyzeSecurityEvent (hasApiKey : Bool) (provider : Except Unit ThreatAnalysis)
    (eventType : Option EventType) : ThreatAnalysis :=
  if !hasApiKey then getMockAnalysis eventType
  else
    match provider with
    | .ok a => a
    | .error _ => getMockAnalysis eventType

/-- Models `AISecurityAnalyzer.generateEmbedding`.  When the API key is
absent or the provider call fails, the pseudo-random mock vector
(`mockRandom`, modelling the `Math.random` draw) is substituted. -/
def generateEmbedding (hasApiKey : Bool) (provider : Except Unit (List ℚ))
    (mockRandom : List ℚ) : List ℚ :=
  if !hasApiKey then mockRandom
  else
    match provider with
    | .ok v => v
    | .error _ => mockRandom

/-! ### MockDataStore.addEvent -/

/-- Models `JSON.stringify` on a `ThreatAnalysis`: a concrete injective-ish
rendering of all fields; the claims only depend on the rendered string being
present, never on its exact shape. -/
def serializeThreatAnalysis (a : ThreatAnalysis) : String :=
  a.threat_type ++ "|" ++ a.severity_justification ++ "|"
    ++ String.intercalate "," a.recommended_actions ++ "|"
    ++ toString a.confidence_score ++ "|" ++ severityStr a.risk_level ++ "|"
    ++ String.intercalate "," a.similar_attacks ++ "|"
    ++ String.intercalate "," a.indicators_of_compromise

/-- The argument type of `addEvent`: `Omit<SecurityEvent, 'id'>`. -/
structure EventData where
  timestamp : Int
  event_type : EventType
  severity : Severity
  source_ip : String
  destination_ip : Option String
  description : String
  raw_data : String
  ai_analysis : Option String
  confidence_score : Option ℚ
  status : Status
  tags : List String
  embedding : Option (List ℚ)
deriving DecidableEq, Repr

/-- The per-call environment of one `addEvent` invocation: the freshly drawn
uuid, whether an API key is configured, the two provider outcomes, and the
mock randomness used on the fallback path. -/
structure EnrichEnv where
  freshId : String
  hasApiKey : Bool
  providerAnalysis : Except Unit ThreatAnalysis
  providerEmbedding : Except Unit (List ℚ)
  mockEmbedding : List ℚ
deriving Repr

/-- The event as it stands at the end of `addEvent`'s body, right before the
`unshift`: id assigned, then `ai_analysis`/`confidence_score` and `embedding`
written by the awaited enrichment steps.  `analyzeSecurityEvent` and
`generateEmbedding` are total (both swallow provider failures internally), so
the `try`/`catch` around them in `addEvent` never skips these writes. -/
def enrichedEvent (env : EnrichEnv) (d : EventData) : SecurityEvent :=
  let analysis := analyzeSecurityEvent env.hasApiKey env.providerAnalysis (some d.event_type)
  { id := env.freshId
    timestamp := d.timestamp
    event_type := d.event_type
    severity := d.severity
    source_ip := d.source_ip
    destination_ip := d.destination_ip
    description := d.description
    raw_data := d.raw_data
    ai_analysis := some (serializeThreatAnalysis analysis)
    confidence_score := some analysis.confidence_score
    status := d.status
    tags := d.tags
    embedding := some (generateEmbedding env.hasApiKey env.providerEmbedding env.mockEmbedding) }

/-- Models `MockDataStore.addEvent`: enrichment is awaited (the function body
runs it to completion), the enriched event is unshifted onto the front of the
events array, the array is truncated to its first 1000 entries when it
exceeds 1000, and the fresh id is returned. -/
def addEvent (env : EnrichEnv) (d : EventData) (s : Store) : String × Store :=
  let event := enrichedEvent env d
  let unshifted := event :: s.events
  let kept := if unshifted.length > 1000 then unshifted.take 1000 else unshifted
  (event.id, { s with events := kept })

/-- Models `MockDataStore.getEvents` (`events.slice(offset, offset + limit)`). -/
def getEvents (s : Store) (limit : Nat := 100) (offset : Nat := 0) : List SecurityEvent :=
  (s.events.drop offset).take limit

/-- Models `MockDataStore.getEventById`. -/
def getEventById (s : Store) (id : String) : Option SecurityEvent :=
  s.events.find? (fun e => e.id == id)

/-! ### MockDataStore.updateEventStatus -/

/-- The in-place mutation performed on the found event: `status` is always
assigned; `ai_analysis` is assigned only when the `aiAnalysis` argument is
truthy (present and not the empty string — `if (aiAnalysis)`). -/
def applyStatusUpdate (status : Status) (aiAnalysis : Option String)
    (e : SecurityEvent) : SecurityEvent :=
  let e1 := { e with status := status }
  match aiAnalysis with
  | some a => if a = "" then e1 else { e1 with ai_analysis := some a }
  | none => e1

/-- Rewrites the first event whose id matches, returning `none` when no event
matches (mirrors `events.find` followed by the conditional mutation). -/
def updateFirstById (id : String) (status : Status) (aiAnalysis : Option String) :
    List SecurityEvent → Option (List SecurityEvent)
  | [] => none
  | e :: rest =>
    if e.id = id then some (applyStatusUpdate status aiAnalysis e :: rest)
    else (updateFirstById id status aiAnalysis rest).map (fun l => e :: l)

/-- Models `MockDataStore.updateEventStatus`: mutate the first event with the
given id in place and return `true`, or return `false` leaving the store
untouched when the id is absent. -/
def updateEventStatus (s : Store) (id : String) (status : Status)
    (aiAnalysis : Option String) : Bool × Store :=
  match updateFirstById id status aiAnalysis s.events with
  | some evs => (true, { s with events := evs })
  | none => (false, s)

/-! ### MockDataStore.cosineSimilarity -/

/-- The `dotProduct` accumulator of the loop in `cosineSimilarity` (the loop
runs over equal-length vectors; the length-mismatch case exits earlier). -/
def dotList (a b : List ℚ) : ℚ :=
  (List.zipWith (fun x y => x * y) a b).sum

/-- The `normA` / `normB` accumulators of the loop: the sum of squares. -/
def sumSq (a : List ℚ) : ℚ :=
  (a.map (fun x => x * x)).sum

/-- Models `MockDataStore.cosineSimilarity`.  Vector components are JS
doubles, modelled as rationals; the returned double is modelled as a real.
A division whose denominator `sqrt(normA) * sqrt(normB)` is zero produces
`NaN` in JS (the numerator is then necessarily zero as well); this
non-finite outcome is modelled as `none`. -/
noncomputable def cosineSimilarity (a b : List ℚ) : Option ℝ :=
  if a.length ≠ b.length then some 0
  else if Real.sqrt ((sumSq a : ℚ) : ℝ) * Real.sqrt ((sumSq b : ℚ) : ℝ) = 0 then none
  else some (((dotList a b : ℚ) : ℝ) /
    (Real.sqrt ((sumSq a : ℚ) : ℝ) * Real.sqrt ((sumSq b : ℚ) : ℝ)))

/-! ### MockDataStore.searchSimilarEvents -/

/-- Insertion step of a stable descending sort keyed by `key`: `x` is placed
before the first element whose key is not larger than `x`'s. -/
def insertKeyDesc {α : Type _} {κ : Type _} [LinearOrder κ] (key : α → κ) (x : α) :
    List α → List α
  | [] => [x]
  | y :: ys => if key y ≤ key x then x :: y :: ys else y :: insertKeyDesc key x ys

/-- Stable descending sort keyed by `key`, modelling
`Array.prototype.sort((a, b) => key(b) - key(a))`, which is stable and sorts
by the key in descending order. -/
def sortKeyDesc {α : Type _} {κ : Type _} [LinearOrder κ] (key : α → κ)
    (l : List α) : List α :=
  l.foldr (insertKeyDesc key) []

/-- The similarity filter of `searchSimilarEvents`: `item.similarity >
threshold`.  A `NaN` similarity (modelled as `none`) compares `false` in JS. -/
noncomputable def similarityAbove (threshold : ℝ) (sim : Option ℝ) : Bool :=
  match sim with
  | some v => decide (threshold < v)
  | none => false

/-- Models `MockDataStore.searchSimilarEvents`: empty when the target has no
embedding; otherwise filters to events that have an embedding and a different
id, maps each to its cosine similarity with the target, keeps similarities
strictly above the threshold, sorts descending by similarity (stably), takes
the first `limit`, and drops the similarity column.  Inside the map the
candidate's embedding is present (it passed the filter), so the `getD []`
models the non-null assertion `event.embedding!`. -/
noncomputable def searchSimilarEvents (s : Store) (targetEvent : SecurityEvent)
    (threshold : ℝ := 0.8) (limit : Nat := 10) : List SecurityEvent :=
  match targetEvent.embedding with
  | none => []
  | some tEmb =>
    let candidates := s.events.filter (fun e => e.embedding.isSome && e.id != targetEvent.id)
    let pairs := candidates.map (fun e => (e, cosineSimilarity tEmb (e.embedding.getD [])))
    let kept := pairs.filter (fun p => similarityAbove threshold p.2)
    let sorted := sortKeyDesc (fun p => p.2.getD 0) kept
    (sorted.take limit).map Prod.fst

/-! ### MockDataStore.getStats -/

/-- One step of the `reduce` building a keyed count record:
`acc[key] = (acc[key] || 0) + 1`.  A JS object holds each key at most once
and preserves the insertion order of its string keys, so the step increments
the (unique) existing entry in place or appends a fresh key at the end. -/
def bumpCount {κ : Type _} [DecidableEq κ] (k : κ) :
    List (κ × Nat) → List (κ × Nat)
  | [] => [(k, 1)]
  | p :: rest => if p.1 = k then (p.1, p.2 + 1) :: rest else p :: bumpCount k rest

/-- The full `reduce` over the events array producing a keyed count record. -/
def countBy {α : Type _} {κ : Type _} [DecidableEq κ] (key : α → κ)
    (l : List α) : List (κ × Nat) :=
  l.foldl (fun acc x => bumpCount (key x) acc) []

/-- The aggregate returned by `MockDataStore.getStats`.  The `dailyStats`
field (calendar-day bucketing with ISO date strings) is outside every claim
and is not modelled. -/
structure Stats where
  totalEvents : Nat
  recentEvents : Nat
  weeklyEvents : Nat
  criticalEvents : Nat
  highEvents : Nat
  resolvedEvents : Nat
  newEvents : Nat
  eventsByType : List (EventType × Nat)
  eventsBySeverity : List (Severity × Nat)
  eventsByStatus : List (Status × Nat)
deriving Repr

/-- Models `MockDataStore.getStats`; `now` is the wall clock at call time in
milliseconds (`new Date()`). -/
def getStats (s : Store) (now : Int) : Stats :=
  let oneDayAgo := now - 24 * 60 * 60 * 1000
  let oneWeekAgo := now - 7 * 24 * 60 * 60 * 1000
  { totalEvents := s.events.length
    recentEvents := (s.events.filter (fun e => decide (oneDayAgo < e.timestamp))).length
    weeklyEvents := (s.events.filter (fun e => decide (oneWeekAgo < e.timestamp))).length
    criticalEvents := (s.events.filter (fun e => e.severity == Severity.critical)).length
    highEvents := (s.events.filter (fun e => e.severity == Severity.high)).length
    resolvedEvents := (s.events.filter (fun e => e.status == Status.resolved)).length
    newEvents := (s.events.filter (fun e => e.status == Status.new)).length
    eventsByType := countBy (fun e => e.event_type) s.events
    eventsBySeverity := countBy (fun e => e.severity) s.events
    eventsByStatus := countBy (fun e => e.status) s.events }

/-! ### MockDataStore.getTopThreats -/

/-- Splitting of a character list at every occurrence of `sep`, the JS
`String.prototype.split` semantics (an empty input yields one empty
segment, a trailing separator yields a trailing empty segment). -/
def splitCharList (sep : Char) : List Char → List (List Char)
  | [] => [[]]
  | c :: cs =>
    let rest := splitCharList sep cs
    if c = sep then [] :: rest
    else
      match rest with
      | h :: t => (c :: h) :: t
      | [] => [[c]]

/-- Models `key.split('_')` on a string. -/
def splitOnUnderscore (s : String) : List String :=
  (splitCharList (Char.ofNat 95) s.data).map (fun l => String.mk l)

/-- An entry of the `getTopThreats` result: `{type, count, severity}` with
`type` and `severity` obtained by destructuring `key.split('_')`. -/
structure TopThreat where
  type : String
  count : Nat
  severity : String
deriving DecidableEq, Repr

/-- The composite grouping key of `getTopThreats`:
`` `${event.event_type}_${event.severity}` ``. -/
def threatKey (e : SecurityEvent) : String :=
  eventTypeStr e.event_type ++ "_" ++ severityStr e.severity

/-- Models `MockDataStore.getTopThreats`: counts events per composite key,
sorts the entries by count descending (stable, so ties keep first-encounter
order), takes the first `limit`, and rebuilds `{type, severity}` by splitting
the key on `_` and taking its first two segments (`const [type, severity] =
key.split('_')`). -/
def getTopThreats (s : Store) (limit : Nat := 5) : List TopThreat :=
  let threatCounts := countBy threatKey s.events
  ((sortKeyDesc (fun p => p.2) threatCounts).take limit).map (fun p =>
    let parts := splitOnUnderscore p.1
    { type := parts.getD 0 "", count := p.2, severity := parts.getD 1 "" })

/-! ### Continuous generation scheduler

`startContinuousGeneration` / `stopContinuousGeneration` run on the
single-threaded JS event loop.  The scheduler state is the `isGenerating`
flag together with the number of `generateEvent` invocations pending on the
event loop (the synchronous call made by `start` plus any `setTimeout`
callbacks).  A `fire` step models one pending invocation running: it returns
immediately when `isGenerating` is false, and otherwise ingests one event and
re-arms the timeout. -/

/-- Scheduler state: the `isGenerating` flag and the pending invocations. -/
structure SchedState where
  isGenerating : Bool
  pending : Nat
deriving DecidableEq, Repr

/-- The observable scheduler transitions: the two public calls plus the
event loop running one pending `generateEvent` invocation. -/
inductive SchedAction where
  | start
  | stop
  | fire
deriving DecidableEq, Repr

/-- One scheduler step; the second component is the number of `addEvent`
(Ingest) calls the step issues. -/
def schedStep (s : SchedState) : SchedAction → SchedState × Nat
  | .start =>
    if s.isGenerating then (s, 0)
    else ({ isGenerating := true, pending := s.pending + 1 }, 0)
  | .stop => ({ s with isGenerating := false }, 0)
  | .fire =>
    match s.pending with
    | 0 => (s, 0)
    | p + 1 =>
      if s.isGenerating then ({ s with pending := p + 1 }, 1)
      else ({ s with pending := p }, 0)

/-- Runs a sequence of scheduler steps, accumulating the Ingest count. -/
def schedRun (s : SchedState) : List SchedAction → SchedState × Nat
  | [] => (s, 0)
  | a :: acts =>
    let fst := schedStep s a
    let rest := schedRun fst.1 acts
    (rest.1, fst.2 + rest.2)

/-! ### Derived definitions used by the verification -/

/-- Sum of the values of a keyed count record (the JS
`Object.values(record).reduce((a, b) => a + b, 0)`). -/
def sumCounts {κ : Type _} (l : List (κ × Nat)) : Nat :=
  (l.map Prod.snd).sum

/-- Runs a sequence of `addEvent` calls against the store, each with its own
enrichment environment. -/
def ingestAll : List (EnrichEnv × EventData) → Store → Store
  | [], s => s
  | i :: ins, s => ingestAll ins (addEvent i.1 i.2 s).2

/-- The similarity of a stored event to a target embedding, with the
undefined (`NaN`) case read as `0`; used only to state the descending order
of search results (all results have a defined similarity). -/
noncomputable def simTo (tEmb : List ℚ) (e : SecurityEvent) : ℝ :=
  (cosineSimilarity tEmb (e.embedding.getD [])).getD 0

/-- The composite key string of a `(category, severity)` pair, as built by
`getTopThreats`. -/
def pairKeyStr (cs : EventType × Severity) : String :=
  eventTypeStr cs.1 ++ "_" ++ severityStr cs.2

/-- Grouping of events by the true composite `(category, severity)` pair,
with counts (the specification-side reading of the `getTopThreats` grouping). -/
def threatPairCounts (events : List SecurityEvent) : List ((EventType × Severity) × Nat) :=
  countBy (fun e => (e.event_type, e.severity)) events

/-- Renders a counted `(category, severity)` group the way `getTopThreats`
does: the composite key string is split on `_` and the first two segments
become the `type` and `severity` fields. -/
def renderThreatEntry (p : (EventType × Severity) × Nat) : TopThreat :=
  let parts := splitOnUnderscore (pairKeyStr p.1)
  { type := parts.getD 0 "", count := p.2, severity := parts.getD 1 "" }

/-! ### Concrete sample data for counterexamples and witnesses -/

/-- A concrete partial event (an `Omit<SecurityEvent, 'id'>` argument). -/
def sampleEventData : EventData where
  timestamp := 0
  event_type := .intrusion
  severity := .high
  source_ip := "203.0.113.5"
  destination_ip := some "192.168.1.10"
  description := "45 failed authentication attempts detected"
  raw_data := "raw"
  ai_analysis := none
  confidence_score := none
  status := .new
  tags := ["brute_force"]
  embedding := none

/-- An enrichment environment in which the external provider always fails
and no API key is configured. -/
def failingEnv : EnrichEnv where
  freshId := "id-1"
  hasApiKey := false
  providerAnalysis := .error ()
  providerEmbedding := .error ()
  mockEmbedding := [1 / 2]

/-- A concrete stored `network_anomaly` event. -/
def sampleAnomalyEvent : SecurityEvent where
  id := "e1"
  timestamp := 0
  event_type := .network_anomaly
  severity := .high
  source_ip := "10.0.0.5"
  destination_ip := some "203.0.113.5"
  description := "Abnormal data transfer detected"
  raw_data := "raw"
  ai_analysis := none
  confidence_score := none
  status := .new
  tags := []
  embedding := none

/-- A concrete stored event carrying an embedding. -/
def sampleEmbeddedEvent : SecurityEvent where
  id := "e2"
  timestamp := 0
  event_type := .malware
  severity := .critical
  source_ip := "10.0.0.5"
  destination_ip := none
  description := "Malware detected"
  raw_data := "raw"
  ai_analysis := none
  confidence_score := none
  status := .investigating
  tags := ["malware"]
  embedding := some [1]

/-- A concrete target event for similarity search, with an embedding. -/
def searchTarget : SecurityEvent where
  id := "t0"
  timestamp := 0
  event_type := .intrusion
  severity := .high
  source_ip := "203.0.113.5"
  destination_ip := none
  description := "45 failed authentication attempts detected"
  raw_data := "raw"
  ai_analysis := none
  confidence_score := none
  status := .new
  tags := []
  embedding := some [1]

/-- A concrete stored event whose embedding points away from the target
(cosine similarity `-1`). -/
def searchFarCandidate : SecurityEvent where
  id := "c2"
  timestamp := 0
  event_type := .dos_attack
  severity := .critical
  source_ip := "198.51.100.10"
  destination_ip := some "192.168.1.10"
  description := "DDoS attack detected"
  raw_data := "raw"
  ai_analysis := none
  confidence_score := none
  status := .new
  tags := []
  embedding := some [-1]

/-- A concrete store for the similarity-search witness: it holds the target
itself (excluded by id), one aligned candidate (`sampleEmbeddedEvent`,
similarity `1`), one anti-aligned candidate (similarity `-1`, below a `0`
threshold) and one event without an embedding. -/
def searchStore : Store :=
  Store.mk [searchTarget, sampleEmbeddedEvent, searchFarCandidate, sampleAnomalyEvent]

/-! ## Theorems -/

/-! ### General list lemmas -/

theorem take_absorb_take {α : Type _} (n : Nat) (xs ys : List α) :
    (xs ++ ys.take n).take n = (xs ++ ys).take n := by
  rw [List.take_append_eq_append_take, List.take_append_eq_append_take,
    List.take_take, Nat.min_eq_left (Nat.sub_le n xs.length)]

/-! ### addEvent lemmas -/

theorem addEvent_fst (env : EnrichEnv) (d : EventData) (s : Store) :
    (addEvent env d s).1 = env.freshId := rfl

theorem addEvent_events_eq (env : EnrichEnv) (d : EventData) (s : Store) :
    (addEvent env d s).2.events = (enrichedEvent env d :: s.events).take 1000 := by
  show (if (enrichedEvent env d :: s.events).length > 1000
      then (enrichedEvent env d :: s.events).take 1000
      else enrichedEvent env d :: s.events) = _
  split
  · rfl
  · next hc => exact (List.take_of_length_le (Nat.not_lt.mp hc)).symm

theorem addEvent_length_le (env : EnrichEnv) (d : EventData) (s : Store) :
    (addEvent env d s).2.events.length ≤ 1000 := by
  rw [addEvent_events_eq env d s, List.length_take]
  exact Nat.min_le_left _ _

/-- C2 key lemma: the events array after a sequence of ingests is the first
1000 entries of the newly inserted events (newest first) prepended to the
initial contents. -/
theorem ingestAll_events (ins : List (EnrichEnv × EventData)) (s : Store)
    (h : s.events.length ≤ 1000) :
    (ingestAll ins s).events =
      ((ins.map (fun i => enrichedEvent i.1 i.2)).reverse ++ s.events).take 1000 ∧
    (ingestAll ins s).events.length ≤ 1000 := by
  induction ins generalizing s with
  | nil =>
    refine ⟨(List.take_of_length_le ?_).symm, h⟩
    simpa using h
  | cons i ins ih =>
    have hstep := addEvent_events_eq i.1 i.2 s
    have hlen := addEvent_length_le i.1 i.2 s
    obtain ⟨h1, h2⟩ := ih (addEvent i.1 i.2 s).2 hlen
    refine ⟨?_, h2⟩
    rw [show ingestAll (i :: ins) s = ingestAll ins (addEvent i.1 i.2 s).2 from rfl,
      h1, hstep]
    rw [show (enrichedEvent i.1 i.2 :: s.events) =
      [enrichedEvent i.1 i.2] ++ s.events from rfl]
    rw [take_absorb_take, List.map_cons, List.reverse_cons, List.append_assoc]

/-- C2: for every sequence of `addEvent` calls starting from a store within
capacity, the store never holds more than 1000 events, and the retained
events are exactly the first 1000 of the most-recently-inserted-first
sequence (so once capacity is exceeded the oldest-by-insertion events are
the ones evicted). -/
theorem addEvent_capacity_invariant (ins : List (EnrichEnv × EventData)) (s : Store)
    (h : s.events.length ≤ 1000) :
    (ingestAll ins s).events.length ≤ 1000 ∧
    (ingestAll ins s).events =
      ((ins.map (fun i => enrichedEvent i.1 i.2)).reverse ++ s.events).take 1000 :=
  ⟨(ingestAll_events ins s h).2, (ingestAll_events ins s h).1⟩

/-- C2 witness: the capacity theorem applied to a concrete one-ingest run
from the empty store. -/
theorem addEvent_capacity_invariant_witness :
    (Store.mk []).events.length ≤ 1000 ∧
    ((ingestAll [(failingEnv, sampleEventData)] (Store.mk [])).events.length ≤ 1000 ∧
    (ingestAll [(failingEnv, sampleEventData)] (Store.mk [])).events =
      (([(failingEnv, sampleEventData)].map (fun i => enrichedEvent i.1 i.2)).reverse
        ++ (Store.mk []).events).take 1000) :=
  ⟨by simp, addEvent_capacity_invariant [(failingEnv, sampleEventData)] (Store.mk []) (by simp)⟩

/-! ### C1: what addEvent returns and when enrichment is applied -/

/-- C1 (amended): `addEvent` always returns the freshly assigned id — also
when the enrichment provider fails, since both enrichment steps swallow
failures and fall back — but it does so only after the awaited enrichment
has completed: the event reaches the store with `ai_analysis`,
`confidence_score` and `embedding` already populated. -/
theorem addEvent_id_and_enrichment (env : EnrichEnv) (d : EventData) (s : Store) :
    (addEvent env d s).1 = env.freshId ∧
    (addEvent env d s).2.events.head? = some (enrichedEvent env d) ∧
    (enrichedEvent env d).id = env.freshId ∧
    (enrichedEvent env d).ai_analysis.isSome = true ∧
    (enrichedEvent env d).confidence_score.isSome = true ∧
    (enrichedEvent env d).embedding.isSome = true := by
  refine ⟨rfl, ?_, rfl, rfl, rfl, rfl⟩
  show (if (enrichedEvent env d :: s.events).length > 1000
      then (enrichedEvent env d :: s.events).take 1000
      else enrichedEvent env d :: s.events).head? = _
  split
  · rw [show (1000 : Nat) = 999 + 1 from rfl, List.take_succ_cons]
    rfl
  · rfl

/-- C1 counterexample: with the provider configured to always fail and no
API key present, `addEvent` still hands back the id — but at the moment the
id is handed back the stored event's `ai_analysis` and `embedding` are
already populated (with the fallback values), not pending: the claimed
return-before-enrichment (with `analysis` populated only afterwards) does
not happen. -/
theorem addEvent_enrichment_already_applied :
    (addEvent failingEnv sampleEventData (Store.mk [])).1 = "id-1" ∧
    ((addEvent failingEnv sampleEventData (Store.mk [])).2.events.map
      (fun e => e.ai_analysis.isSome)) = [true] ∧
    ((addEvent failingEnv sampleEventData (Store.mk [])).2.events.map
      (fun e => e.embedding)) = [some [1 / 2]] := by
  refine ⟨rfl, rfl, rfl⟩

/-! ### C7: getStats totals -/

theorem sumCounts_bumpCount {κ : Type _} [DecidableEq κ] (k : κ)
    (acc : List (κ × Nat)) :
    sumCounts (bumpCount k acc) = sumCounts acc + 1 := by
  induction acc with
  | nil => rfl
  | cons p rest ih =>
    by_cases hp : p.1 = k
    · simp [bumpCount, hp, sumCounts]
      omega
    · simp [bumpCount, hp, sumCounts] at ih ⊢
      omega

theorem sumCounts_countBy_aux {α : Type _} {κ : Type _} [DecidableEq κ]
    (key : α → κ) (l : List α) (acc : List (κ × Nat)) :
    sumCounts (l.foldl (fun acc x => bumpCount (key x) acc) acc) =
      sumCounts acc + l.length := by
  induction l generalizing acc with
  | nil => rfl
  | cons x xs ih =>
    simp only [List.foldl_cons, List.length_cons, ih, sumCounts_bumpCount]
    omega

theorem sumCounts_countBy {α : Type _} {κ : Type _} [DecidableEq κ]
    (key : α → κ) (l : List α) :
    sumCounts (countBy key l) = l.length := by
  have := sumCounts_countBy_aux key l []
  simpa [countBy, sumCounts] using this

/-- C7: `getStats` reports `totalEvents` equal to the stored collection
size, and the severity and status count records each sum to `totalEvents`. -/
theorem getStats_totals (s : Store) (now : Int) :
    (getStats s now).totalEvents = s.events.length ∧
    sumCounts (getStats s now).eventsBySeverity = (getStats s now).totalEvents ∧
    sumCounts (getStats s now).eventsByStatus = (getStats s now).totalEvents :=
  ⟨rfl, sumCounts_countBy _ _, sumCounts_countBy _ _⟩

/-! ### C8 and C10: updateEventStatus -/

theorem updateFirstById_none_iff (id : String) (st : Status) (a : Option String)
    (l : List SecurityEvent) :
    updateFirstById id st a l = none ↔ ∀ e ∈ l, e.id ≠ id := by
  induction l with
  | nil => simp [updateFirstById]
  | cons e rest ih =>
    by_cases he : e.id = id
    · simp [updateFirstById, he]
    · simp [updateFirstById, he, Option.map_eq_none', ih]

/-- C8: `updateEventStatus` on an id absent from the store returns `false`
and leaves the store entirely unchanged; on a present id it returns `true`. -/
theorem updateEventStatus_found_semantics (s : Store) (id : String) (st : Status)
    (a : Option String) :
    ((∀ e ∈ s.events, e.id ≠ id) → updateEventStatus s id st a = (false, s)) ∧
    ((∃ e ∈ s.events, e.id = id) → (updateEventStatus s id st a).1 = true) := by
  constructor
  · intro h
    unfold updateEventStatus
    rw [(updateFirstById_none_iff id st a s.events).mpr h]
  · rintro ⟨e, he, hid⟩
    unfold updateEventStatus
    cases hu : updateFirstById id st a s.events with
    | some evs => rfl
    | none =>
      exact absurd hid ((updateFirstById_none_iff id st a s.events).mp hu e he)

/-- C8 witness: the two implications discharged on a concrete store holding
the single event `sampleAnomalyEvent` (id `e1`), queried with the absent id
`ghost` and with the present id `e1`. -/
theorem updateEventStatus_found_semantics_witness :
    ((∀ e ∈ (Store.mk [sampleAnomalyEvent]).events, e.id ≠ "ghost") ∧
      updateEventStatus (Store.mk [sampleAnomalyEvent]) "ghost" Status.resolved none =
        (false, Store.mk [sampleAnomalyEvent])) ∧
    ((∃ e ∈ (Store.mk [sampleAnomalyEvent]).events, e.id = "e1") ∧
      (updateEventStatus (Store.mk [sampleAnomalyEvent]) "e1" Status.resolved none).1 = true) := by
  have habsent : ∀ e ∈ (Store.mk [sampleAnomalyEvent]).events, e.id ≠ "ghost" := by
    decide
  have hpresent : ∃ e ∈ (Store.mk [sampleAnomalyEvent]).events, e.id = "e1" := by
    exact ⟨sampleAnomalyEvent, by decide, by decide⟩
  exact ⟨⟨habsent,
      (updateEventStatus_found_semantics (Store.mk [sampleAnomalyEvent]) "ghost"
        Status.resolved none).1 habsent⟩,
    ⟨hpresent,
      (updateEventStatus_found_semantics (Store.mk [sampleAnomalyEvent]) "e1"
        Status.resolved none).2 hpresent⟩⟩

theorem applyStatusUpdate_none (st : Status) (e : SecurityEvent) :
    applyStatusUpdate st none e = { e with status := st } := rfl

theorem applyStatusUpdate_empty (st : Status) (e : SecurityEvent) :
    applyStatusUpdate st (some "") e = { e with status := st } := by
  simp [applyStatusUpdate]

theorem applyStatusUpdate_some (st : Status) (txt : String) (e : SecurityEvent)
    (h : txt ≠ "") :
    applyStatusUpdate st (some txt) e =
      { e with status := st, ai_analysis := some txt } := by
  simp [applyStatusUpdate, h]

theorem updateFirstById_split (id : String) (st : Status) (a : Option String)
    (l1 : List SecurityEvent) (e : SecurityEvent) (l2 : List SecurityEvent)
    (hid : e.id = id) (hl1 : ∀ x ∈ l1, x.id ≠ id) :
    updateFirstById id st a (l1 ++ e :: l2) =
      some (l1 ++ applyStatusUpdate st a e :: l2) := by
  induction l1 with
  | nil => simp [updateFirstById, hid]
  | cons x xs ih =>
    have hx : x.id ≠ id := hl1 x (by simp)
    simp only [List.cons_append, updateFirstById, hx, if_false]
    rw [show (xs.append (e :: l2) : List SecurityEvent) = xs ++ e :: l2 from rfl,
      ih (fun y hy => hl1 y (by simp [hy]))]
    rfl

/-- C10: on a present id, `updateEventStatus` rewrites exactly the targeted
event: its `status` becomes the new status, its `ai_analysis` is replaced
only when a (truthy) new analysis is supplied, every other field of the
event keeps its value, and all other events — before and after it — are
untouched. -/
theorem updateEventStatus_frame (s : Store) (id : String) (st : Status)
    (a : Option String) (l1 : List SecurityEvent) (e : SecurityEvent)
    (l2 : List SecurityEvent) (hsplit : s.events = l1 ++ e :: l2)
    (hid : e.id = id) (hl1 : ∀ x ∈ l1, x.id ≠ id) :
    ∃ e', (updateEventStatus s id st a).2.events = l1 ++ e' :: l2 ∧
      (updateEventStatus s id st a).1 = true ∧
      e'.id = e.id ∧ e'.timestamp = e.timestamp ∧
      e'.event_type = e.event_type ∧ e'.severity = e.severity ∧
      e'.source_ip = e.source_ip ∧ e'.destination_ip = e.destination_ip ∧
      e'.description = e.description ∧ e'.raw_data = e.raw_data ∧
      e'.confidence_score = e.confidence_score ∧ e'.tags = e.tags ∧
      e'.embedding = e.embedding ∧
      e'.status = st ∧
      (a = none → e'.ai_analysis = e.ai_analysis) ∧
      (a = some "" → e'.ai_analysis = e.ai_analysis) ∧
      (∀ txt, a = some txt → txt ≠ "" → e'.ai_analysis = some txt) := by
  refine ⟨applyStatusUpdate st a e, ?_, ?_, ?_⟩
  · unfold updateEventStatus
    rw [hsplit, updateFirstById_split id st a l1 e l2 hid hl1]
  · unfold updateEventStatus
    rw [hsplit, updateFirstById_split id st a l1 e l2 hid hl1]
  · cases a with
    | none =>
      rw [applyStatusUpdate_none]
      exact ⟨rfl, rfl, rfl, rfl, rfl, rfl, rfl, rfl, rfl, rfl, rfl, rfl,
        fun _ => rfl, nofun, nofun⟩
    | some txt =>
      by_cases htxt : txt = ""
      · subst htxt
        rw [applyStatusUpdate_empty]
        exact ⟨rfl, rfl, rfl, rfl, rfl, rfl, rfl, rfl, rfl, rfl, rfl, rfl,
          nofun, fun _ => rfl,
          fun t ht hne => absurd (Option.some.inj ht).symm hne⟩
      · rw [applyStatusUpdate_some st txt e htxt]
        exact ⟨rfl, rfl, rfl, rfl, rfl, rfl, rfl, rfl, rfl, rfl, rfl, rfl,
          nofun, fun h => absurd (Option.some.inj h) htxt,
          fun t ht hne => by cases Option.some.inj ht; rfl⟩

/-- C10 witness: the frame theorem applied to a concrete singleton store,
with the status set to `resolved` and a fresh analysis string supplied. -/
theorem updateEventStatus_frame_witness :
    ((Store.mk [sampleAnomalyEvent]).events = [] ++ sampleAnomalyEvent :: [] ∧
      sampleAnomalyEvent.id = "e1" ∧ (∀ x ∈ ([] : List SecurityEvent), x.id ≠ "e1")) ∧
    (∃ e', (updateEventStatus (Store.mk [sampleAnomalyEvent]) "e1" Status.resolved
        (some "reviewed")).2.events = [] ++ e' :: [] ∧
      (updateEventStatus (Store.mk [sampleAnomalyEvent]) "e1" Status.resolved
        (some "reviewed")).1 = true ∧
      e'.id = sampleAnomalyEvent.id ∧ e'.timestamp = sampleAnomalyEvent.timestamp ∧
      e'.event_type = sampleAnomalyEvent.event_type ∧
      e'.severity = sampleAnomalyEvent.severity ∧
      e'.source_ip = sampleAnomalyEvent.source_ip ∧
      e'.destination_ip = sampleAnomalyEvent.destination_ip ∧
      e'.description = sampleAnomalyEvent.description ∧
      e'.raw_data = sampleAnomalyEvent.raw_data ∧
      e'.confidence_score = sampleAnomalyEvent.confidence_score ∧
      e'.tags = sampleAnomalyEvent.tags ∧
      e'.embedding = sampleAnomalyEvent.embedding ∧
      e'.status = Status.resolved ∧
      (some "reviewed" = none → e'.ai_analysis = sampleAnomalyEvent.ai_analysis) ∧
      (some "reviewed" = some "" → e'.ai_analysis = sampleAnomalyEvent.ai_analysis) ∧
      (∀ txt, some "reviewed" = some txt → txt ≠ "" → e'.ai_analysis = some txt)) :=
  ⟨⟨rfl, rfl, fun x hx => absurd hx (List.not_mem_nil x)⟩,
    updateEventStatus_frame (Store.mk [sampleAnomalyEvent]) "e1" Status.resolved
      (some "reviewed") [] sampleAnomalyEvent [] rfl rfl
      (fun x hx => absurd hx (List.not_mem_nil x))⟩

/-! ### C9: scheduler idempotence and stop semantics -/

theorem schedStep_stop_not_generating (s : SchedState) :
    (schedStep s .stop).1.isGenerating = false := rfl

theorem schedRun_no_start_no_ingest (s : SchedState) (hgen : s.isGenerating = false)
    (acts : List SchedAction) (hna : SchedAction.start ∉ acts) :
    (schedRun s acts).2 = 0 ∧ (schedRun s acts).1.isGenerating = false := by
  induction acts generalizing s with
  | nil => exact ⟨rfl, hgen⟩
  | cons a acts ih =>
    obtain ⟨gen, pending⟩ := s
    have hgen2 : gen = false := hgen
    subst hgen2
    have hne : a ≠ SchedAction.start := fun h => hna (by simp [h])
    have hna2 : SchedAction.start ∉ acts := fun h => hna (by simp [h])
    have hstep : (schedStep (SchedState.mk false pending) a).2 = 0 ∧
        (schedStep (SchedState.mk false pending) a).1.isGenerating = false := by
      cases a with
      | start => exact absurd rfl hne
      | stop => exact ⟨rfl, rfl⟩
      | fire =>
        cases pending with
        | zero => exact ⟨rfl, rfl⟩
        | succ p => exact ⟨rfl, rfl⟩
    obtain ⟨h1, h2⟩ := ih (schedStep (SchedState.mk false pending) a).1 hstep.2 hna2
    constructor
    · show (schedStep (SchedState.mk false pending) a).2 +
        (schedRun (schedStep (SchedState.mk false pending) a).1 acts).2 = 0
      rw [hstep.1, h1]
    · exact h2

/-- C9: starting the scheduler while it is already running is a no-op (so a
double start equals a single start), stopping is idempotent and total (it
can be issued when not started and twice in a row, producing no ingest), and
once `stop` has been issued no later step ingests as long as no new `start`
intervenes. -/
theorem scheduler_start_stop_semantics (s : SchedState) :
    (s.isGenerating = true → schedStep s .start = (s, 0)) ∧
    schedStep (schedStep s .start).1 .start = ((schedStep s .start).1, 0) ∧
    schedStep s .stop = ({ s with isGenerating := false }, 0) ∧
    schedStep (schedStep s .stop).1 .stop = ((schedStep s .stop).1, 0) ∧
    (∀ acts : List SchedAction, SchedAction.start ∉ acts →
      (schedRun (schedStep s .stop).1 acts).2 = 0) := by
  refine ⟨?_, ?_, rfl, rfl, ?_⟩
  · intro h
    show (if s.isGenerating then (s, 0) else _) = (s, 0)
    rw [if_pos h]
  · show (if (schedStep s .start).1.isGenerating then _ else _) = _
    rw [if_pos ?_]
    show (if s.isGenerating then (s, 0) else _).1.isGenerating = true
    by_cases h : s.isGenerating
    · rw [if_pos h]; exact h
    · rw [if_neg h]
  · intro acts hna
    exact (schedRun_no_start_no_ingest (schedStep s .stop).1 rfl acts hna).1

/-- C9 witness: the scheduler semantics applied to the concrete idle state
(not generating, nothing pending), with the post-stop trace `[stop, fire]`. -/
theorem scheduler_start_stop_semantics_witness :
    ((SchedState.mk false 0).isGenerating = true →
      schedStep (SchedState.mk false 0) .start = (SchedState.mk false 0, 0)) ∧
    schedStep (schedStep (SchedState.mk false 0) .start).1 .start =
      ((schedStep (SchedState.mk false 0) .start).1, 0) ∧
    schedStep (SchedState.mk false 0) .stop =
      ({ SchedState.mk false 0 with isGenerating := false }, 0) ∧
    schedStep (schedStep (SchedState.mk false 0) .stop).1 .stop =
      ((schedStep (SchedState.mk false 0) .stop).1, 0) ∧
    (∀ acts : List SchedAction, SchedAction.start ∉ acts →
      (schedRun (schedStep (SchedState.mk false 0) .stop).1 acts).2 = 0) :=
  scheduler_start_stop_semantics (SchedState.mk false 0)

/-! ### C4: the fallback analysis lookup table -/

/-- C4 counterexample: the fixed fallback table keys are exactly
`intrusion`, `malware`, `network_anomaly` — the categories `data_breach`,
`phishing` and `dos_attack` of the closed six-element set have no entry of
their own, contradicting the claimed one-entry-per-category table. -/
theorem mockAnalyses_missing_categories :
    mockAnalyses.map Prod.fst =
      [EventType.intrusion, EventType.malware, EventType.network_anomaly] ∧
    EventType.data_breach ∉ mockAnalyses.map Prod.fst ∧
    EventType.phishing ∉ mockAnalyses.map Prod.fst ∧
    EventType.dos_attack ∉ mockAnalyses.map Prod.fst :=
  ⟨rfl, by decide, by decide, by decide⟩

/-- C4 (amended): the fallback analysis is a fixed lookup keyed by category,
but the table holds entries only for `intrusion`, `malware` and
`network_anomaly`; every other category — and a missing category — falls
through to the default, which is the `intrusion` entry. -/
theorem getMockAnalysis_table :
    mockAnalyses.map Prod.fst =
      [EventType.intrusion, EventType.malware, EventType.network_anomaly] ∧
    getMockAnalysis (some .intrusion) = mockIntrusionAnalysis ∧
    getMockAnalysis (some .malware) = mockMalwareAnalysis ∧
    getMockAnalysis (some .network_anomaly) = mockNetworkAnomalyAnalysis ∧
    getMockAnalysis (some .data_breach) = mockIntrusionAnalysis ∧
    getMockAnalysis (some .phishing) = mockIntrusionAnalysis ∧
    getMockAnalysis (some .dos_attack) = mockIntrusionAnalysis ∧
    getMockAnalysis none = mockIntrusionAnalysis :=
  ⟨rfl, rfl, rfl, rfl, rfl, rfl, rfl, rfl⟩

/-! ### C6 counterexample: the key-splitting of getTopThreats -/

/-- C6 counterexample: a store holding one `network_anomaly`/`high` event.
`getTopThreats` groups it under the key `network_anomaly_high`, then splits
that key on `_` and keeps the first two segments, so the reported type is
`network` and the reported severity is `anomaly` — neither is one of the six
event categories resp. four severity levels. -/
theorem getTopThreats_mangles_composite_key :
    getTopThreats (Store.mk [sampleAnomalyEvent]) 5 =
      [{ type := "network", count := 1, severity := "anomaly" }] ∧
    "network" ∉ ([EventType.intrusion, .malware, .network_anomaly, .data_breach,
      .phishing, .dos_attack].map eventTypeStr) ∧
    "anomaly" ∉ ([Severity.low, .medium, .high, .critical].map severityStr) :=
  ⟨by decide, by decide, by decide⟩

/-! ### C3: cosine similarity -/

theorem sumSq_cons (x : ℚ) (xs : List ℚ) : sumSq (x :: xs) = x * x + sumSq xs := by
  simp [sumSq]

theorem dotList_cons (x y : ℚ) (xs ys : List ℚ) :
    dotList (x :: xs) (y :: ys) = x * y + dotList xs ys := by
  simp [dotList]

theorem sumSq_nonneg (a : List ℚ) : 0 ≤ sumSq a := by
  induction a with
  | nil => exact le_refl 0
  | cons x xs ih =>
    rw [sumSq_cons]
    exact add_nonneg (mul_self_nonneg x) ih

/-- Cauchy-Schwarz for the loop accumulators of `cosineSimilarity`. -/
theorem dotList_sq_le (a b : List ℚ) : dotList a b ^ 2 ≤ sumSq a * sumSq b := by
  induction a generalizing b with
  | nil =>
    have h1 : dotList [] b = 0 := rfl
    have h2 : sumSq ([] : List ℚ) = 0 := rfl
    rw [h1, h2]
    simp
  | cons x xs ih =>
    cases b with
    | nil =>
      have h1 : dotList (x :: xs) [] = 0 := rfl
      rw [h1]
      simp [mul_nonneg (sumSq_nonneg (x :: xs)) (sumSq_nonneg [])]
    | cons y ys =>
      have hA := sumSq_nonneg xs
      have hB := sumSq_nonneg ys
      have hd := ih ys
      rw [dotList_cons, sumSq_cons, sumSq_cons]
      rcases eq_or_lt_of_le hA with hA0 | hApos
      · have hdz : dotList xs ys = 0 := by
          have h0 : dotList xs ys ^ 2 ≤ 0 := by
            calc dotList xs ys ^ 2 ≤ sumSq xs * sumSq ys := hd
            _ = 0 := by rw [← hA0, zero_mul]
          nlinarith [sq_nonneg (dotList xs ys)]
        rw [hdz, ← hA0]
        nlinarith [mul_nonneg (mul_self_nonneg x) hB, mul_self_nonneg y,
          mul_self_nonneg x]
      · nlinarith [sq_nonneg (sumSq xs * y - x * dotList xs ys),
          mul_nonneg (add_nonneg (mul_self_nonneg x) hA) (sub_nonneg.mpr hd),
          hApos, hd, hB]

theorem dotList_sq_le_real (a b : List ℚ) :
    ((dotList a b : ℚ) : ℝ) ^ 2 ≤ ((sumSq a : ℚ) : ℝ) * ((sumSq b : ℚ) : ℝ) := by
  exact_mod_cast dotList_sq_le a b

/-- C3 (amended): for equal-length vectors, `cosineSimilarity` returns a
value in `[-1, 1]` when both vectors have nonzero magnitude; when either
vector has zero magnitude the JS computation divides `0` by `0` and yields
`NaN` (modelled `none`), not `0`. -/
theorem cosineSimilarity_range_and_zero_norm (a b : List ℚ)
    (hlen : a.length = b.length) :
    (sumSq a ≠ 0 → sumSq b ≠ 0 →
      ∃ r : ℝ, cosineSimilarity a b = some r ∧ -1 ≤ r ∧ r ≤ 1) ∧
    (sumSq a = 0 ∨ sumSq b = 0 → cosineSimilarity a b = none) := by
  unfold cosineSimilarity
  rw [if_neg (by simp [hlen])]
  constructor
  · intro ha hb
    have hA : (0 : ℝ) < ((sumSq a : ℚ) : ℝ) := by
      exact_mod_cast lt_of_le_of_ne (sumSq_nonneg a) (Ne.symm ha)
    have hB : (0 : ℝ) < ((sumSq b : ℚ) : ℝ) := by
      exact_mod_cast lt_of_le_of_ne (sumSq_nonneg b) (Ne.symm hb)
    have hsA : 0 < Real.sqrt ((sumSq a : ℚ) : ℝ) := Real.sqrt_pos.mpr hA
    have hsB : 0 < Real.sqrt ((sumSq b : ℚ) : ℝ) := Real.sqrt_pos.mpr hB
    have hden : 0 < Real.sqrt ((sumSq a : ℚ) : ℝ) * Real.sqrt ((sumSq b : ℚ) : ℝ) :=
      mul_pos hsA hsB
    rw [if_neg (ne_of_gt hden)]
    have habs : |((dotList a b : ℚ) : ℝ)| ≤
        Real.sqrt ((sumSq a : ℚ) : ℝ) * Real.sqrt ((sumSq b : ℚ) : ℝ) := by
      rw [← Real.sqrt_sq_eq_abs, ← Real.sqrt_mul hA.le]
      exact Real.sqrt_le_sqrt (dotList_sq_le_real a b)
    have hq : |((dotList a b : ℚ) : ℝ) /
        (Real.sqrt ((sumSq a : ℚ) : ℝ) * Real.sqrt ((sumSq b : ℚ) : ℝ))| ≤ 1 := by
      rw [abs_div, abs_of_pos hden]
      exact (div_le_one hden).mpr habs
    exact ⟨_, rfl, (abs_le.mp hq).1, (abs_le.mp hq).2⟩
  · intro h
    rw [if_pos ?_]
    rcases h with h | h
    · rw [show ((sumSq a : ℚ) : ℝ) = 0 from by exact_mod_cast h, Real.sqrt_zero,
        zero_mul]
    · rw [show ((sumSq b : ℚ) : ℝ) = 0 from by exact_mod_cast h, Real.sqrt_zero,
        mul_zero]

/-- C3 witness: the range-and-zero-norm theorem applied to the concrete
equal-length vectors `[1]` and `[1]`. -/
theorem cosineSimilarity_range_and_zero_norm_witness :
    ([(1 : ℚ)] : List ℚ).length = ([(1 : ℚ)] : List ℚ).length ∧
    ((sumSq [(1 : ℚ)] ≠ 0 → sumSq [(1 : ℚ)] ≠ 0 →
      ∃ r : ℝ, cosineSimilarity [(1 : ℚ)] [(1 : ℚ)] = some r ∧ -1 ≤ r ∧ r ≤ 1) ∧
    (sumSq [(1 : ℚ)] = 0 ∨ sumSq [(1 : ℚ)] = 0 →
      cosineSimilarity [(1 : ℚ)] [(1 : ℚ)] = none)) :=
  ⟨rfl, cosineSimilarity_range_and_zero_norm [(1 : ℚ)] [(1 : ℚ)] rfl⟩

/-- C3 counterexample: for the equal-length pair `[0]` and `[1]` the first
vector has zero magnitude, and `cosineSimilarity` evaluates `0 / (0 * 1)`,
producing `NaN` (modelled `none`) — not the claimed exact `0`. -/
theorem cosineSimilarity_zero_norm_not_zero :
    cosineSimilarity [(0 : ℚ)] [(1 : ℚ)] = none ∧
    cosineSimilarity [(0 : ℚ)] [(1 : ℚ)] ≠ some 0 := by
  have h : cosineSimilarity [(0 : ℚ)] [(1 : ℚ)] = none := by
    have hz : Real.sqrt ((sumSq [(0 : ℚ)] : ℚ) : ℝ) *
        Real.sqrt ((sumSq [(1 : ℚ)] : ℚ) : ℝ) = 0 := by
      rw [show ((sumSq [(0 : ℚ)] : ℚ) : ℝ) = 0 from by norm_num [sumSq],
        Real.sqrt_zero, zero_mul]
    unfold cosineSimilarity
    rw [if_neg (by simp), if_pos hz]
  exact ⟨h, by rw [h]; simp⟩

/-! ### Sorting lemmas -/

theorem mem_insertKeyDesc {α : Type _} {κ : Type _} [LinearOrder κ] (key : α → κ)
    (x y : α) (l : List α) :
    y ∈ insertKeyDesc key x l ↔ y = x ∨ y ∈ l := by
  induction l with
  | nil => simp [insertKeyDesc]
  | cons z zs ih =>
    by_cases h : key z ≤ key x
    · simp [insertKeyDesc, h]
    · simp [insertKeyDesc, h, ih]
      tauto

theorem mem_sortKeyDesc {α : Type _} {κ : Type _} [LinearOrder κ] (key : α → κ)
    (y : α) (l : List α) :
    y ∈ sortKeyDesc key l ↔ y ∈ l := by
  induction l with
  | nil => exact Iff.rfl
  | cons x xs ih =>
    show y ∈ insertKeyDesc key x (sortKeyDesc key xs) ↔ _
    rw [mem_insertKeyDesc, ih]
    simp [eq_comm]

theorem pairwise_insertKeyDesc {α : Type _} {κ : Type _} [LinearOrder κ]
    (key : α → κ) (x : α) (l : List α)
    (hl : l.Pairwise (fun a b => key b ≤ key a)) :
    (insertKeyDesc key x l).Pairwise (fun a b => key b ≤ key a) := by
  induction l with
  | nil => simp [insertKeyDesc]
  | cons z zs ih =>
    rcases List.pairwise_cons.mp hl with ⟨hz, hzs⟩
    by_cases h : key z ≤ key x
    · show (if key z ≤ key x then x :: z :: zs else _).Pairwise _
      rw [if_pos h]
      refine List.pairwise_cons.mpr ⟨?_, hl⟩
      intro b hb
      rcases List.mem_cons.mp hb with rfl | hb2
      · exact h
      · exact le_trans (hz b hb2) h
    · show (if key z ≤ key x then _ else z :: insertKeyDesc key x zs).Pairwise _
      rw [if_neg h]
      refine List.pairwise_cons.mpr ⟨?_, ih hzs⟩
      intro b hb
      rcases (mem_insertKeyDesc key x b zs).mp hb with rfl | hb2
      · exact le_of_not_le h
      · exact hz b hb2

theorem pairwise_sortKeyDesc {α : Type _} {κ : Type _} [LinearOrder κ]
    (key : α → κ) (l : List α) :
    (sortKeyDesc key l).Pairwise (fun a b => key b ≤ key a) := by
  induction l with
  | nil => simp [sortKeyDesc]
  | cons x xs ih => exact pairwise_insertKeyDesc key x _ ih

theorem insertKeyDesc_map {α β : Type _} {κ : Type _} [LinearOrder κ]
    (key : α → κ) (keyb : β → κ) (g : α → β) (hk : ∀ x, keyb (g x) = key x)
    (x : α) (l : List α) :
    insertKeyDesc keyb (g x) (l.map g) = (insertKeyDesc key x l).map g := by
  induction l with
  | nil => rfl
  | cons y ys ih =>
    show (if keyb (g y) ≤ keyb (g x) then g x :: g y :: ys.map g
        else g y :: insertKeyDesc keyb (g x) (ys.map g)) =
      (if key y ≤ key x then x :: y :: ys else y :: insertKeyDesc key x ys).map g
    rw [hk, hk]
    by_cases h : key y ≤ key x
    · rw [if_pos h, if_pos h, List.map_cons, List.map_cons]
    · rw [if_neg h, if_neg h, List.map_cons, ih]

theorem sortKeyDesc_map {α β : Type _} {κ : Type _} [LinearOrder κ]
    (key : α → κ) (keyb : β → κ) (g : α → β) (hk : ∀ x, keyb (g x) = key x)
    (l : List α) :
    sortKeyDesc keyb (l.map g) = (sortKeyDesc key l).map g := by
  induction l with
  | nil => rfl
  | cons x xs ih =>
    show insertKeyDesc keyb (g x) (sortKeyDesc keyb (xs.map g)) =
      (insertKeyDesc key x (sortKeyDesc key xs)).map g
    rw [ih, insertKeyDesc_map key keyb g hk]

/-! ### C6: getTopThreats grouping correspondence -/

theorem pairKeyStr_injective :
    ∀ a b : EventType × Severity, pairKeyStr a = pairKeyStr b → a = b := by
  decide

theorem bumpCount_map_inj {κ κ' : Type _} [DecidableEq κ] [DecidableEq κ']
    (f : κ → κ') (hf : ∀ a b, f a = f b → a = b) (k : κ) (acc : List (κ × Nat)) :
    bumpCount (f k) (acc.map (fun p => (f p.1, p.2))) =
      (bumpCount k acc).map (fun p => (f p.1, p.2)) := by
  induction acc with
  | nil => rfl
  | cons p rest ih =>
    by_cases hp : p.1 = k
    · simp [bumpCount, hp]
    · have hfp : ¬ f p.1 = f k := fun h => hp (hf _ _ h)
      simp [bumpCount, hp, hfp, ih]

theorem countBy_map_inj {α : Type _} {κ κ' : Type _} [DecidableEq κ]
    [DecidableEq κ'] (key : α → κ) (f : κ → κ') (hf : ∀ a b, f a = f b → a = b)
    (l : List α) :
    countBy (fun x => f (key x)) l = (countBy key l).map (fun p => (f p.1, p.2)) := by
  suffices h : ∀ acc : List (κ × Nat),
      l.foldl (fun acc x => bumpCount (f (key x)) acc)
        (acc.map (fun p => (f p.1, p.2))) =
      (l.foldl (fun acc x => bumpCount (key x) acc) acc).map
        (fun p => (f p.1, p.2)) by
    simpa [countBy] using h []
  induction l with
  | nil => intro acc; rfl
  | cons x xs ih =>
    intro acc
    simp only [List.foldl_cons]
    rw [bumpCount_map_inj f hf, ih]

/-- C6 (amended): `getTopThreats` does group by the composite
category-severity pair, count occurrences, order by count descending with
ties kept in first-encountered order (the sort is stable), and truncate to
`limit`; but each entry is then rendered by splitting the composite key on
`_` and keeping the first two segments, so `type`/`severity` equal the true
category and severity only for the underscore-free categories (`intrusion`,
`malware`, `phishing`), while `network_anomaly`, `data_breach` and
`dos_attack` events are reported with the two halves of their category name
(e.g. type `network`, severity `anomaly`). -/
theorem getTopThreats_spec (s : Store) (limit : Nat) :
    getTopThreats s limit =
      ((sortKeyDesc (fun p => p.2) (threatPairCounts s.events)).take limit).map
        renderThreatEntry ∧
    (getTopThreats s limit).Pairwise (fun a b => b.count ≤ a.count) ∧
    (∀ sev n, renderThreatEntry ((EventType.intrusion, sev), n) =
      { type := "intrusion", count := n, severity := severityStr sev }) ∧
    (∀ sev n, renderThreatEntry ((EventType.malware, sev), n) =
      { type := "malware", count := n, severity := severityStr sev }) ∧
    (∀ sev n, renderThreatEntry ((EventType.phishing, sev), n) =
      { type := "phishing", count := n, severity := severityStr sev }) ∧
    (∀ sev n, renderThreatEntry ((EventType.network_anomaly, sev), n) =
      { type := "network", count := n, severity := "anomaly" }) ∧
    (∀ sev n, renderThreatEntry ((EventType.data_breach, sev), n) =
      { type := "data", count := n, severity := "breach" }) ∧
    (∀ sev n, renderThreatEntry ((EventType.dos_attack, sev), n) =
      { type := "dos", count := n, severity := "attack" }) := by
  have hkey : countBy threatKey s.events =
      (threatPairCounts s.events).map (fun p => (pairKeyStr p.1, p.2)) :=
    countBy_map_inj (fun e : SecurityEvent => (e.event_type, e.severity))
      pairKeyStr pairKeyStr_injective s.events
  have hmain : getTopThreats s limit =
      ((sortKeyDesc (fun p => p.2) (threatPairCounts s.events)).take limit).map
        renderThreatEntry := by
    show ((sortKeyDesc (fun p : String × Nat => p.2)
        (countBy threatKey s.events)).take limit).map
        (fun p : String × Nat =>
          ({ type := (splitOnUnderscore p.1).getD 0 "", count := p.2,
             severity := (splitOnUnderscore p.1).getD 1 "" } : TopThreat)) = _
    rw [hkey,
      sortKeyDesc_map (fun p : (EventType × Severity) × Nat => p.2)
        (fun p : String × Nat => p.2)
        (fun p : (EventType × Severity) × Nat => (pairKeyStr p.1, p.2))
        (fun p => rfl), ← List.map_take, List.map_map]
    rfl
  refine ⟨hmain, ?_, ?_, ?_, ?_, ?_, ?_, ?_⟩
  · rw [hmain]
    have hp : ((sortKeyDesc (fun p : (EventType × Severity) × Nat => p.2)
        (threatPairCounts s.events)).take limit).Pairwise
        (fun a b => b.2 ≤ a.2) :=
      List.Pairwise.sublist (List.take_sublist _ _)
        (pairwise_sortKeyDesc (fun p => p.2) (threatPairCounts s.events))
    rw [List.pairwise_map]
    exact hp.imp (fun h => h)
  · intro sev n; cases sev <;> rfl
  · intro sev n; cases sev <;> rfl
  · intro sev n; cases sev <;> rfl
  · intro sev n; rfl
  · intro sev n; rfl
  · intro sev n; rfl

/-! ### C5: similarity search -/

theorem cosineSimilarity_one_one :
    cosineSimilarity [(1 : ℚ)] [(1 : ℚ)] = some 1 := by
  unfold cosineSimilarity
  rw [if_neg (by simp)]
  rw [show ((sumSq [(1 : ℚ)] : ℚ) : ℝ) = 1 from by norm_num [sumSq]]
  rw [Real.sqrt_one, mul_one]
  rw [if_neg one_ne_zero]
  rw [show (dotList [(1 : ℚ)] [(1 : ℚ)] : ℚ) = 1 from by norm_num [dotList]]
  norm_num

theorem cosineSimilarity_one_neg_one :
    cosineSimilarity [(1 : ℚ)] [(-1 : ℚ)] = some (-1) := by
  unfold cosineSimilarity
  rw [if_neg (by simp)]
  rw [show ((sumSq [(1 : ℚ)] : ℚ) : ℝ) = 1 from by norm_num [sumSq],
    show ((sumSq [(-1 : ℚ)] : ℚ) : ℝ) = 1 from by norm_num [sumSq]]
  rw [Real.sqrt_one, mul_one]
  rw [if_neg one_ne_zero]
  rw [show (dotList [(1 : ℚ)] [(-1 : ℚ)] : ℚ) = -1 from by norm_num [dotList]]
  norm_num

/-- Concrete run of the similarity search on `searchStore`: the stored copy
of the target is excluded by id, the anti-aligned candidate (similarity
`-1`) fails the `0` threshold, the event without an embedding is not a
candidate, and the aligned candidate (similarity `1`) is returned. -/
theorem searchSimilarEvents_concrete :
    searchSimilarEvents searchStore searchTarget 0 10 = [sampleEmbeddedEvent] := by
  have hpos : (fun p : SecurityEvent × Option ℝ => similarityAbove 0 p.2)
      (sampleEmbeddedEvent, some (1 : ℝ)) = true := by
    simp only [similarityAbove]
    exact decide_eq_true (by norm_num)
  have hneg : ¬ (fun p : SecurityEvent × Option ℝ => similarityAbove 0 p.2)
      (searchFarCandidate, some (-1 : ℝ)) = true := by
    simp only [similarityAbove]
    intro hcontra
    have hlt := of_decide_eq_true hcontra
    norm_num at hlt
  unfold searchSimilarEvents
  rw [show searchTarget.embedding = some [(1 : ℚ)] from rfl]
  show ((sortKeyDesc (fun p : SecurityEvent × Option ℝ => p.2.getD 0)
      (((searchStore.events.filter
        (fun e => e.embedding.isSome && e.id != searchTarget.id)).map
        (fun e => (e, cosineSimilarity [(1 : ℚ)] (e.embedding.getD [])))).filter
        (fun p => similarityAbove 0 p.2))).take 10).map Prod.fst =
    [sampleEmbeddedEvent]
  rw [show searchStore.events.filter
      (fun e => e.embedding.isSome && e.id != searchTarget.id) =
      [sampleEmbeddedEvent, searchFarCandidate] from by decide]
  simp only [List.map_cons, List.map_nil]
  rw [show (sampleEmbeddedEvent.embedding.getD [] : List ℚ) = [(1 : ℚ)] from rfl,
    show (searchFarCandidate.embedding.getD [] : List ℚ) = [(-1 : ℚ)] from rfl]
  rw [cosineSimilarity_one_one, cosineSimilarity_one_neg_one]
  rw [@List.filter_cons_of_pos _ (fun p : SecurityEvent × Option ℝ => similarityAbove 0 p.2)
      (sampleEmbeddedEvent, some (1 : ℝ)) [(searchFarCandidate, some (-1 : ℝ))] hpos,
    @List.filter_cons_of_neg _ (fun p : SecurityEvent × Option ℝ => similarityAbove 0 p.2)
      (searchFarCandidate, some (-1 : ℝ)) [] hneg,
    List.filter_nil]
  rfl

/-- C5: `searchSimilarEvents` returns the empty sequence when the target has
no embedding; otherwise the result is exactly the candidate pipeline of the
claim — the stored events other than the target that carry an embedding,
mapped to their similarities, filtered to similarity strictly above the
threshold, stably sorted descending by similarity, truncated to `limit`, and
projected back to events — and consequently: it has at most `limit` events,
every returned event is a stored non-target event with an embedding whose
similarity exceeds the threshold, it is ordered by similarity descending,
every returned event is at least as similar as every qualifying stored event
left out, and whenever the result is shorter than `limit` it contains every
qualifying stored event. -/
theorem searchSimilarEvents_spec (s : Store) (t : SecurityEvent) (threshold : ℝ)
    (limit : Nat) :
    (t.embedding = none → searchSimilarEvents s t threshold limit = []) ∧
    (∀ tEmb, t.embedding = some tEmb →
      (searchSimilarEvents s t threshold limit =
        ((sortKeyDesc (fun p : SecurityEvent × Option ℝ => p.2.getD 0)
          (((s.events.filter (fun e => e.embedding.isSome && e.id != t.id)).map
            (fun e => (e, cosineSimilarity tEmb (e.embedding.getD [])))).filter
            (fun p => similarityAbove threshold p.2))).take limit).map
          Prod.fst ∧
      (searchSimilarEvents s t threshold limit).length ≤ limit ∧
      (∀ e ∈ searchSimilarEvents s t threshold limit,
        e ∈ s.events ∧ e.id ≠ t.id ∧ e.embedding.isSome = true ∧
        ∃ v : ℝ, cosineSimilarity tEmb (e.embedding.getD []) = some v ∧
          threshold < v) ∧
      (searchSimilarEvents s t threshold limit).Pairwise
        (fun x y => simTo tEmb y ≤ simTo tEmb x) ∧
      (∀ x ∈ searchSimilarEvents s t threshold limit,
        ∀ e ∈ s.events, e.id ≠ t.id → e.embedding.isSome = true →
        ∀ v : ℝ, cosineSimilarity tEmb (e.embedding.getD []) = some v →
          threshold < v → e ∉ searchSimilarEvents s t threshold limit →
          simTo tEmb e ≤ simTo tEmb x) ∧
      ((searchSimilarEvents s t threshold limit).length < limit →
        ∀ e ∈ s.events, e.id ≠ t.id → e.embedding.isSome = true →
        ∀ v : ℝ, cosineSimilarity tEmb (e.embedding.getD []) = some v →
          threshold < v → e ∈ searchSimilarEvents s t threshold limit))) := by
  constructor
  · intro h
    unfold searchSimilarEvents
    rw [h]
  · intro tEmb ht
    have hres : searchSimilarEvents s t threshold limit =
        ((sortKeyDesc (fun p : SecurityEvent × Option ℝ => p.2.getD 0)
          (((s.events.filter (fun e => e.embedding.isSome && e.id != t.id)).map
            (fun e => (e, cosineSimilarity tEmb (e.embedding.getD [])))).filter
            (fun p => similarityAbove threshold p.2))).take limit).map
          Prod.fst := by
      unfold searchSimilarEvents
      rw [ht]
    have hkeptsim : ∀ p ∈ ((s.events.filter
          (fun e => e.embedding.isSome && e.id != t.id)).map
          (fun e => (e, cosineSimilarity tEmb (e.embedding.getD [])))).filter
          (fun p => similarityAbove threshold p.2),
        simTo tEmb p.1 = p.2.getD 0 := by
      intro p hp
      obtain ⟨hpair, _⟩ := List.mem_filter.mp hp
      obtain ⟨c, _, rfl⟩ := List.mem_map.mp hpair
      rfl
    have hlen : (searchSimilarEvents s t threshold limit).length ≤ limit := by
      rw [hres, List.length_map, List.length_take]
      exact Nat.min_le_left _ _
    have hsound : ∀ e ∈ searchSimilarEvents s t threshold limit,
        e ∈ s.events ∧ e.id ≠ t.id ∧ e.embedding.isSome = true ∧
        ∃ v : ℝ, cosineSimilarity tEmb (e.embedding.getD []) = some v ∧
          threshold < v := by
      intro e he
      rw [hres] at he
      obtain ⟨p, hp, rfl⟩ := List.mem_map.mp he
      have hp2 := List.mem_of_mem_take hp
      rw [mem_sortKeyDesc] at hp2
      obtain ⟨hpairs, hsim⟩ := List.mem_filter.mp hp2
      obtain ⟨c, hc, rfl⟩ := List.mem_map.mp hpairs
      obtain ⟨hcs, hq⟩ := List.mem_filter.mp hc
      rw [Bool.and_eq_true] at hq
      refine ⟨hcs, ?_, hq.1, ?_⟩
      · exact bne_iff_ne.mp hq.2
      · cases hcos : cosineSimilarity tEmb (c.embedding.getD []) with
        | none => simp [similarityAbove, hcos] at hsim
        | some v =>
          simp only [similarityAbove, hcos] at hsim
          exact ⟨v, rfl, of_decide_eq_true hsim⟩
    have hpw : (searchSimilarEvents s t threshold limit).Pairwise
        (fun x y => simTo tEmb y ≤ simTo tEmb x) := by
      rw [hres, List.pairwise_map]
      have hsorted := pairwise_sortKeyDesc
        (fun p : SecurityEvent × Option ℝ => p.2.getD 0)
        (((s.events.filter (fun e => e.embedding.isSome && e.id != t.id)).map
          (fun e => (e, cosineSimilarity tEmb (e.embedding.getD [])))).filter
          (fun p => similarityAbove threshold p.2))
      have htake := List.Pairwise.sublist (List.take_sublist limit _) hsorted
      refine htake.imp_of_mem ?_
      intro a b ha hb hle
      have hma : a ∈ _ := (mem_sortKeyDesc _ a _).mp (List.mem_of_mem_take ha)
      have hmb : b ∈ _ := (mem_sortKeyDesc _ b _).mp (List.mem_of_mem_take hb)
      show simTo tEmb b.1 ≤ simTo tEmb a.1
      rw [hkeptsim a hma, hkeptsim b hmb]
      exact hle
    have hmax : ∀ x ∈ searchSimilarEvents s t threshold limit,
        ∀ e ∈ s.events, e.id ≠ t.id → e.embedding.isSome = true →
        ∀ v : ℝ, cosineSimilarity tEmb (e.embedding.getD []) = some v →
          threshold < v → e ∉ searchSimilarEvents s t threshold limit →
          simTo tEmb e ≤ simTo tEmb x := by
      intro x hx e heS hne hemb v hcos hv hnotin
      have hpe_kept : (e, cosineSimilarity tEmb (e.embedding.getD [])) ∈
          ((s.events.filter (fun e => e.embedding.isSome && e.id != t.id)).map
            (fun e => (e, cosineSimilarity tEmb (e.embedding.getD [])))).filter
            (fun p => similarityAbove threshold p.2) := by
        refine List.mem_filter.mpr ⟨?_, ?_⟩
        · exact List.mem_map.mpr ⟨e, List.mem_filter.mpr ⟨heS, by
            rw [Bool.and_eq_true]
            exact ⟨hemb, bne_iff_ne.mpr hne⟩⟩, rfl⟩
        · simp only [similarityAbove, hcos]
          exact decide_eq_true hv
      have hpe_sorted : (e, cosineSimilarity tEmb (e.embedding.getD [])) ∈
          sortKeyDesc (fun p : SecurityEvent × Option ℝ => p.2.getD 0)
          (((s.events.filter (fun e => e.embedding.isSome && e.id != t.id)).map
            (fun e => (e, cosineSimilarity tEmb (e.embedding.getD [])))).filter
            (fun p => similarityAbove threshold p.2)) :=
        (mem_sortKeyDesc _ _ _).mpr hpe_kept
      rw [hres] at hx
      obtain ⟨px, hpx_take, rfl⟩ := List.mem_map.mp hx
      have hpe_not_take : (e, cosineSimilarity tEmb (e.embedding.getD [])) ∉
          (sortKeyDesc (fun p : SecurityEvent × Option ℝ => p.2.getD 0)
          (((s.events.filter (fun e => e.embedding.isSome && e.id != t.id)).map
            (fun e => (e, cosineSimilarity tEmb (e.embedding.getD [])))).filter
            (fun p => similarityAbove threshold p.2))).take limit := by
        intro hcontra
        apply hnotin
        rw [hres]
        exact List.mem_map.mpr ⟨_, hcontra, rfl⟩
      have hpe_drop : (e, cosineSimilarity tEmb (e.embedding.getD [])) ∈
          (sortKeyDesc (fun p : SecurityEvent × Option ℝ => p.2.getD 0)
          (((s.events.filter (fun e => e.embedding.isSome && e.id != t.id)).map
            (fun e => (e, cosineSimilarity tEmb (e.embedding.getD [])))).filter
            (fun p => similarityAbove threshold p.2))).drop limit := by
        have hm := hpe_sorted
        rw [← List.take_append_drop limit (sortKeyDesc
          (fun p : SecurityEvent × Option ℝ => p.2.getD 0)
          (((s.events.filter (fun e => e.embedding.isSome && e.id != t.id)).map
            (fun e => (e, cosineSimilarity tEmb (e.embedding.getD [])))).filter
            (fun p => similarityAbove threshold p.2)))] at hm
        rcases List.mem_append.mp hm with h | h
        · exact absurd h hpe_not_take
        · exact h
      have hsplit : ((sortKeyDesc (fun p : SecurityEvent × Option ℝ => p.2.getD 0)
          (((s.events.filter (fun e => e.embedding.isSome && e.id != t.id)).map
            (fun e => (e, cosineSimilarity tEmb (e.embedding.getD [])))).filter
            (fun p => similarityAbove threshold p.2))).take limit ++
          (sortKeyDesc (fun p : SecurityEvent × Option ℝ => p.2.getD 0)
          (((s.events.filter (fun e => e.embedding.isSome && e.id != t.id)).map
            (fun e => (e, cosineSimilarity tEmb (e.embedding.getD [])))).filter
            (fun p => similarityAbove threshold p.2))).drop limit).Pairwise
          (fun a b => (b.2.getD 0 : ℝ) ≤ a.2.getD 0) := by
        rw [List.take_append_drop]
        exact pairwise_sortKeyDesc _ _
      have hcross := (List.pairwise_append.mp hsplit).2.2 px hpx_take
        (e, cosineSimilarity tEmb (e.embedding.getD [])) hpe_drop
      have hx_kept : px ∈ ((s.events.filter
          (fun e => e.embedding.isSome && e.id != t.id)).map
          (fun e => (e, cosineSimilarity tEmb (e.embedding.getD [])))).filter
          (fun p => similarityAbove threshold p.2) :=
        (mem_sortKeyDesc _ _ _).mp (List.mem_of_mem_take hpx_take)
      show simTo tEmb e ≤ simTo tEmb px.1
      rw [hkeptsim px hx_kept]
      exact hcross
    have hcomp : (searchSimilarEvents s t threshold limit).length < limit →
        ∀ e ∈ s.events, e.id ≠ t.id → e.embedding.isSome = true →
        ∀ v : ℝ, cosineSimilarity tEmb (e.embedding.getD []) = some v →
          threshold < v → e ∈ searchSimilarEvents s t threshold limit := by
      intro hlt e heS hne hemb v hcos hv
      rw [hres] at hlt ⊢
      rw [List.length_map, List.length_take] at hlt
      have hlen2 : (sortKeyDesc (fun p : SecurityEvent × Option ℝ => p.2.getD 0)
          (((s.events.filter (fun e => e.embedding.isSome && e.id != t.id)).map
            (fun e => (e, cosineSimilarity tEmb (e.embedding.getD [])))).filter
            (fun p => similarityAbove threshold p.2))).length < limit := by
        rcases Nat.lt_or_ge (sortKeyDesc (fun p : SecurityEvent × Option ℝ => p.2.getD 0)
            (((s.events.filter (fun e => e.embedding.isSome && e.id != t.id)).map
              (fun e => (e, cosineSimilarity tEmb (e.embedding.getD [])))).filter
              (fun p => similarityAbove threshold p.2))).length limit with h | h
        · exact h
        · rw [Nat.min_eq_left h] at hlt
          exact absurd hlt (lt_irrefl limit)
      rw [List.take_of_length_le (le_of_lt hlen2)]
      refine List.mem_map.mpr
        ⟨(e, cosineSimilarity tEmb (e.embedding.getD [])), ?_, rfl⟩
      rw [mem_sortKeyDesc]
      refine List.mem_filter.mpr ⟨?_, ?_⟩
      · exact List.mem_map.mpr ⟨e, List.mem_filter.mpr ⟨heS, by
          rw [Bool.and_eq_true]
          exact ⟨hemb, bne_iff_ne.mpr hne⟩⟩, rfl⟩
      · simp only [similarityAbove, hcos]
        exact decide_eq_true hv
    exact ⟨hres, hlen, hsound, hpw, hmax, hcomp⟩

/-- C5 witness: the search theorem applied to the concrete `searchStore`
(four events: the target itself, an aligned candidate, an anti-aligned
candidate and one event without an embedding) and the embedded target
`searchTarget`, at threshold `0` and limit `10`.  The target's embedding is
present (`some [1]`), so the entire non-empty branch of the theorem is
exercised, and the concrete run is evaluated: exactly the aligned candidate
is returned. -/
theorem searchSimilarEvents_spec_witness :
    searchTarget.embedding = some [(1 : ℚ)] ∧
    searchSimilarEvents searchStore searchTarget 0 10 = [sampleEmbeddedEvent] ∧
    ((searchTarget.embedding = none →
      searchSimilarEvents searchStore searchTarget 0 10 = []) ∧
    (∀ tEmb, searchTarget.embedding = some tEmb →
      (searchSimilarEvents searchStore searchTarget 0 10 =
        ((sortKeyDesc (fun p : SecurityEvent × Option ℝ => p.2.getD 0)
          (((searchStore.events.filter
            (fun e => e.embedding.isSome && e.id != searchTarget.id)).map
            (fun e => (e, cosineSimilarity tEmb (e.embedding.getD [])))).filter
            (fun p => similarityAbove 0 p.2))).take 10).map
          Prod.fst ∧
      (searchSimilarEvents searchStore searchTarget 0 10).length ≤ 10 ∧
      (∀ e ∈ searchSimilarEvents searchStore searchTarget 0 10,
        e ∈ searchStore.events ∧ e.id ≠ searchTarget.id ∧
        e.embedding.isSome = true ∧
        ∃ v : ℝ, cosineSimilarity tEmb (e.embedding.getD []) = some v ∧
          (0 : ℝ) < v) ∧
      (searchSimilarEvents searchStore searchTarget 0 10).Pairwise
        (fun x y => simTo tEmb y ≤ simTo tEmb x) ∧
      (∀ x ∈ searchSimilarEvents searchStore searchTarget 0 10,
        ∀ e ∈ searchStore.events, e.id ≠ searchTarget.id →
        e.embedding.isSome = true →
        ∀ v : ℝ, cosineSimilarity tEmb (e.embedding.getD []) = some v →
          (0 : ℝ) < v → e ∉ searchSimilarEvents searchStore searchTarget 0 10 →
          simTo tEmb e ≤ simTo tEmb x) ∧
      ((searchSimilarEvents searchStore searchTarget 0 10).length < 10 →
        ∀ e ∈ searchStore.events, e.id ≠ searchTarget.id →
        e.embedding.isSome = true →
        ∀ v : ℝ, cosineSimilarity tEmb (e.embedding.getD []) = some v →
          (0 : ℝ) < v →
          e ∈ searchSimilarEvents searchStore searchTarget 0 10)))) :=
  ⟨rfl, searchSimilarEvents_concrete,
    searchSimilarEvents_spec searchStore searchTarget 0 10⟩

end CyberDemo
